import Mathlib

/-!
Verification of the aggregation and graph-construction engine of the
exportify repository (`visualize.py`): the artist-name normalizer, the
grouping engine, ranking and truncation, the statistics aggregator and the
graph builder.  Python strings are modelled through their character lists;
Python `str.strip`, `str.split(sep)` and `sep in s` are reimplemented
below with the same observable behaviour on the inputs the engine uses.
Python numbers are modelled by `ℤ` and the exact-rational type `Q`
below (binary floating point is abstracted to exact rationals; `round`
is round-half-to-even as in Python).
-/

namespace Exportify

/-- Whitespace test used by `str.strip()` (ASCII whitespace; Python also
strips some rarer Unicode spaces, which no record field here contains). -/
def wsChar (c : Char) : Bool := c.isWhitespace

/-- Strip of a character list: drop leading and trailing whitespace,
mirroring Python `str.strip()`. -/
def stripL (l : List Char) : List Char :=
  ((l.dropWhile wsChar).reverse.dropWhile wsChar).reverse

/-- Python `s.strip()`. -/
def pyStrip (s : String) : String := String.mk (stripL s.data)

/-- Python `s.split(sep)` for a two-character separator `[c₁, c₂]`:
left-to-right scan, splitting at each non-overlapping occurrence and
keeping empty parts (so `"".split(", ") = [""]`). -/
def split2 (c₁ c₂ : Char) : List Char → List (List Char)
  | [] => [[]]
  | [c] => [[c]]
  | c :: d :: rest =>
    if c = c₁ ∧ d = c₂ then [] :: split2 c₁ c₂ rest
    else
      match split2 c₁ c₂ (d :: rest) with
      | [] => [[c]]
      | t :: ts => (c :: t) :: ts

/-- Python `sep in s` for the two-character separator `[c₁, c₂]`. -/
def contains2 (c₁ c₂ : Char) : List Char → Bool
  | [] => false
  | [_] => false
  | c :: d :: rest => (c = c₁ && d = c₂) || contains2 c₁ c₂ (d :: rest)

/-- Python `s.split(sep)` lifted to `String`. -/
def pySplit (c₁ c₂ : Char) (s : String) : List String :=
  (split2 c₁ c₂ s.data).map String.mk

/-- Python `sep in s` lifted to `String`. -/
def pyContains (c₁ c₂ : Char) (s : String) : Bool := contains2 c₁ c₂ s.data

/-- Exact rational value.  Python's binary floating point is abstracted
to exact rational arithmetic; every value built by the operations below is
in lowest terms with positive denominator, so structural equality is
numeric equality.  A zero denominator never arises from the constructors
used here. -/
structure Q where
  num : ℤ
  den : ℕ
  deriving Repr, DecidableEq

/-- Canonical rational `n / d` for a natural denominator. -/
def Q.norm (n : ℤ) (d : ℕ) : Q :=
  if d = 0 then ⟨n, 0⟩
  else ⟨n / Int.gcd n d, d / Int.gcd n d⟩

/-- Embedding of integers. -/
def Q.ofInt (n : ℤ) : Q := ⟨n, 1⟩

/-- Rational addition. -/
def Q.add (a b : Q) : Q := Q.norm (a.num * b.den + b.num * a.den) (a.den * b.den)

/-- Python `sum` over float values, left to right from `0`. -/
def Q.sum (l : List Q) : Q := l.foldl Q.add (Q.ofInt 0)

/-- Rational divided by a natural number. -/
def Q.divNat (a : Q) (n : ℕ) : Q := Q.norm a.num (a.den * n)

/-- Python `round(q, p)`: nearest multiple of `10⁻ᵖ`, halves to even. -/
def Q.roundTo (p : ℕ) (q : Q) : Q :=
  if q.den = 0 then q
  else
    let n := q.num * (10 : ℤ) ^ p
    let f := n.fdiv (q.den : ℤ)
    let r2 := 2 * (n - f * (q.den : ℤ))
    let c := if r2 < (q.den : ℤ) then f
      else if (q.den : ℤ) < r2 then f + 1
      else if f % 2 = 0 then f else f + 1
    Q.norm c (10 ^ p)

/-- Python `round(q, 1)`. -/
def round1 (q : Q) : Q := Q.roundTo 1 q

/-- Python `round(q, 2)`. -/
def round2 (q : Q) : Q := Q.roundTo 2 q

/-! ### Basic lemmas about the string layer -/

theorem dropWhile_idem {α : Type} (p : α → Bool) (l : List α) :
    (l.dropWhile p).dropWhile p = l.dropWhile p := by
  induction l with
  | nil => simp
  | cons c t ih =>
    by_cases h : p c
    · simpa [List.dropWhile_cons, h] using ih
    · simp [List.dropWhile_cons, h]

theorem stripL_all_ws {l : List Char} (h : stripL l = []) :
    ∀ c ∈ l, wsChar c = true := by
  unfold stripL at h
  have h2 : (l.dropWhile wsChar).reverse.dropWhile wsChar = [] := by
    have := congrArg List.reverse h
    simpa using this
  have h3 : ∀ c ∈ (l.dropWhile wsChar).reverse, wsChar c = true :=
    List.dropWhile_eq_nil_iff.mp h2
  have h4 : ∀ c ∈ l.dropWhile wsChar, wsChar c = true := by
    intro c hc
    exact h3 c (List.mem_reverse.mpr hc)
  intro c hc
  have := List.takeWhile_append_dropWhile wsChar l
  rw [← this] at hc
  rcases List.mem_append.mp hc with h5 | h5
  · exact List.mem_takeWhile_imp h5
  · exact h4 c h5

theorem dropWhile_take_eq_self {α : Type} {p : α → Bool} {m : List α}
    (h : m.dropWhile p = m) (k : ℕ) : (m.take k).dropWhile p = m.take k := by
  cases m with
  | nil => simp
  | cons c t =>
    have hc : p c = false := by
      by_contra hc'
      have hc2 : p c = true := by simpa using hc'
      rw [List.dropWhile_cons, if_pos hc2] at h
      have hle : (t.dropWhile p).length ≤ t.length := (List.dropWhile_sublist p).length_le
      rw [h] at hle
      simp at hle
    cases k with
    | zero => simp
    | succ k => simp [List.dropWhile_cons, hc]

theorem rstrip_eq_take {α : Type} (p : α → Bool) (m : List α) :
    ∃ k, ((m.reverse.dropWhile p).reverse) = m.take k := by
  refine ⟨m.length - (m.reverse.takeWhile p).length, ?_⟩
  have h0 := List.drop_left (m.reverse.takeWhile p) (m.reverse.dropWhile p)
  rw [List.takeWhile_append_dropWhile] at h0
  have h1 : m.reverse.dropWhile p =
      m.reverse.drop (m.reverse.takeWhile p).length := h0.symm
  rw [h1, List.reverse_drop]
  simp

theorem stripL_idem (l : List Char) : stripL (stripL l) = stripL l := by
  unfold stripL
  obtain ⟨k, hk⟩ := rstrip_eq_take wsChar (l.dropWhile wsChar)
  rw [hk, dropWhile_take_eq_self (dropWhile_idem wsChar l) k, ← hk]
  rw [List.reverse_reverse, dropWhile_idem]

theorem pyStrip_idem (s : String) : pyStrip (pyStrip s) = pyStrip s := by
  unfold pyStrip
  exact congrArg String.mk (stripL_idem s.data)

theorem pyStrip_eq_empty_iff (s : String) : pyStrip s = "" ↔ stripL s.data = [] := by
  constructor
  · intro h
    have : (pyStrip s).data = ("" : String).data := by rw [h]
    simpa [pyStrip] using this
  · intro h
    unfold pyStrip
    rw [h]

theorem contains2_mem {c₁ c₂ : Char} :
    ∀ {l : List Char}, contains2 c₁ c₂ l = true → c₁ ∈ l := by
  intro l
  induction l with
  | nil => intro h; simp [contains2] at h
  | cons c t ih =>
    intro h
    match t, h with
    | [], h => simp [contains2] at h
    | d :: rest, h =>
      rcases Bool.or_eq_true_iff.mp h with h1 | h1
      · have hc : c = c₁ := by
          have := Bool.and_eq_true_iff.mp h1
          exact of_decide_eq_true this.1
        simp [hc]
      · exact List.mem_cons_of_mem _ (ih h1)

/-! ### Records as the graph route sees them

`get_graph_data` reads three fields, each through `dict.get` with a
default, so a record may lack any of them (`visualize.py` lines 123, 163,
150, 199).  Non-string JSON values for these fields are outside the model;
the spec's record contract types them as strings. -/

structure GSong where
  artist_names : Option String
  album_name : Option String
  popularity : Option Int
  deriving Repr, DecidableEq

/-- Popularity of a song as the graph builder reads it:
`s.get('popularity', 0)`. -/
def popOf (s : GSong) : ℤ := s.popularity.getD 0

/-- Sum of the popularities of a song list (lines 150, 199). -/
def popSum (songs : List GSong) : ℤ := (songs.map popOf).sum

/-- Delimiter-priority split of the first artist loop, `visualize.py`
lines 130-135: split on `", "` if present, else on `"; "` if present,
else the single trimmed field. -/
def pySplitArtists (an : String) : List String :=
  if pyContains ',' ' ' an then (pySplit ',' ' ' an).map pyStrip
  else if pyContains ';' ' ' an then (pySplit ';' ' ' an).map pyStrip
  else [pyStrip an]

/-- Token filter of the artist loops, `visualize.py` lines 139-141 and
187-189: keep `artist.strip()` when `artist` and `artist.strip()` are
both truthy. -/
def keepTokens (l : List String) : List String :=
  l.filterMap (fun a => if a ≠ "" && pyStrip a ≠ "" then some (pyStrip a) else none)

/-- Artist-name normalizer of the graph builder (lines 122-144): an empty
field is skipped outright (`if not artist_names: continue`); otherwise the
delimiter-priority split runs and blank tokens are discarded. -/
def normalize_artists (an : String) : List String :=
  if an = "" then [] else keepTokens (pySplitArtists an)

/-- Append `v` to the list held at key `k` of an association list,
creating the key at the end on first occurrence — Python dict insertion
semantics of `artist_songs[artist].append(song)`. -/
def alistAppend {α : Type} (m : List (String × List α)) (k : String) (v : α) :
    List (String × List α) :=
  if m.any (fun p => p.1 == k) then
    m.map (fun p => if p.1 == k then (p.1, p.2 ++ [v]) else p)
  else m ++ [(k, [v])]

/-- One record of the first loop of `get_graph_data` (lines 121-144):
attribute the song to every normalized artist name. -/
def artistStep (m : List (String × List GSong)) (song : GSong) :
    List (String × List GSong) :=
  let an := song.artist_names.getD ""
  if an = "" then m
  else (keepTokens (pySplitArtists an)).foldl (fun acc artist => alistAppend acc artist song) m

/-- The `artist_songs` mapping (lines 120-144). -/
def artistSongs (data : List GSong) : List (String × List GSong) :=
  data.foldl artistStep []

/-- Python `set.add` modelled on a list in first-insertion order (Python
set iteration order is unspecified; no claim depends on it). -/
def setAdd (l : List String) (x : String) : List String :=
  if x ∈ l then l else l ++ [x]

structure AlbumInfo where
  artists : List String
  songs : List GSong
  deriving Repr, DecidableEq

/-- Delimiter-priority split of the album loop, lines 177-183; it differs
from the first loop in the final branch: a blank field yields `[]`
directly. -/
def pySplitArtistsAlbum (an : String) : List String :=
  if pyContains ',' ' ' an then (pySplit ',' ' ' an).map pyStrip
  else if pyContains ';' ' ' an then (pySplit ';' ' ' an).map pyStrip
  else if pyStrip an ≠ "" then [pyStrip an] else []

/-- Album-key resolution (lines 163-167): default to the sentinel on a
missing or blank field, then strip. -/
def resolveAlbum (song : GSong) : String :=
  let album0 := song.album_name.getD "Unknown Album"
  let album1 := if album0 = "" || pyStrip album0 = "" then "Unknown Album" else album0
  pyStrip album1

/-- One record of the second loop of `get_graph_data` (lines 162-190):
resolve the album key, create its entry on first occurrence, union the
song's artists into the album's artist set and append the song. -/
def albumStep (m : List (String × AlbumInfo)) (song : GSong) :
    List (String × AlbumInfo) :=
  let album := resolveAlbum song
  let m1 := if m.any (fun p => p.1 == album) then m else m ++ [(album, ⟨[], []⟩)]
  let artists := keepTokens (pySplitArtistsAlbum (song.artist_names.getD ""))
  m1.map (fun p =>
    if p.1 == album then (p.1, ⟨artists.foldl setAdd p.2.artists, p.2.songs ++ [song]⟩)
    else p)

/-- The `album_data` mapping (lines 161-190). -/
def albumData (data : List GSong) : List (String × AlbumInfo) :=
  data.foldl albumStep []

/-- Comparator of `sorted(..., key=lambda x: len(x[1]), reverse=True)`
(line 147): descending song count.  Python's sort is stable, and a stable
sort for a total preorder has a unique output, so the stable
`insertionSort` below computes exactly what Python's Timsort does. -/
def artistGe (a b : String × List GSong) : Prop := b.2.length ≤ a.2.length

instance : DecidableRel artistGe := fun a b => Nat.decLe b.2.length a.2.length

instance : IsTotal (String × List GSong) artistGe :=
  ⟨fun a b => Nat.le_total b.2.length a.2.length⟩

instance : IsTrans (String × List GSong) artistGe :=
  ⟨fun _ _ _ hab hbc => le_trans hbc hab⟩

/-- Comparator of `sorted(..., key=lambda x: len(x[1]['songs']), reverse=True)`
(line 193). -/
def albumGe (a b : String × AlbumInfo) : Prop := b.2.songs.length ≤ a.2.songs.length

instance : DecidableRel albumGe := fun a b => Nat.decLe b.2.songs.length a.2.songs.length

instance : IsTotal (String × AlbumInfo) albumGe :=
  ⟨fun a b => Nat.le_total b.2.songs.length a.2.songs.length⟩

instance : IsTrans (String × AlbumInfo) albumGe :=
  ⟨fun _ _ _ hab hbc => le_trans hbc hab⟩

/-- Top-50 artists (line 147). -/
def sortedArtists (m : List (String × List GSong)) : List (String × List GSong) :=
  (List.insertionSort artistGe m).take 50

/-- Top-40 albums (line 193). -/
def sortedAlbums (m : List (String × AlbumInfo)) : List (String × AlbumInfo) :=
  (List.insertionSort albumGe m).take 40

structure GNode where
  id : String
  name : String
  type : String
  size : ℕ
  popularity : Q
  deriving Repr, DecidableEq

structure GLink where
  source : String
  target : String
  value : ℕ
  deriving Repr, DecidableEq

structure GBuild where
  nodes : List GNode
  links : List GLink
  node_ids : List String
  deriving Repr, DecidableEq

/-- Artist node size (line 155): `max(5, min(len(songs) * 2, 30))`. -/
def artistSize (n : ℕ) : ℕ := max 5 (min (n * 2) 30)

/-- Album node size (line 206): `max(5, min(len(info['songs']) + 5, 25))`. -/
def albumSize (n : ℕ) : ℕ := max 5 (min (n + 5) 25)

/-- Album display name (line 204): truncate to 50 characters plus an
ellipsis marker when longer. -/
def truncName (album : String) : String :=
  if album.data.length > 50 then String.mk (album.data.take 50 ++ "...".data) else album

/-- Python `/` of an integer by a list length: raises
`ZeroDivisionError` on a zero denominator, otherwise exact division. -/
def pyDiv (a : ℤ) (b : ℕ) : Except String Q :=
  if b = 0 then Except.error "ZeroDivisionError: division by zero" else Except.ok (Q.norm a b)

/-- Artist-node loop (lines 149-158). -/
def processArtists : List (String × List GSong) → GBuild → Except String GBuild
  | [], st => Except.ok st
  | (artist, songs) :: rest, st => do
    let avg ← if songs = [] then pure (Q.ofInt 0) else pyDiv (popSum songs) songs.length
    let aid := "artist_" ++ artist
    let node : GNode := ⟨aid, artist, "artist", artistSize songs.length, round1 avg⟩
    processArtists rest ⟨st.nodes ++ [node], st.links, setAdd st.node_ids aid⟩

/-- Album-node and link loop (lines 195-219): append the album node,
record its id, then emit one link per artist in the album's artist set
whose artist node id is already present (lines 212-219). -/
def processAlbums : List (String × AlbumInfo) → GBuild → Except String GBuild
  | [], st => Except.ok st
  | (album, info) :: rest, st =>
    if info.songs = [] then processAlbums rest st
    else do
      let avg ← pyDiv (popSum info.songs) info.songs.length
      let aid := "album_" ++ album
      let node : GNode := ⟨aid, truncName album, "album", albumSize info.songs.length, round1 avg⟩
      let ids := setAdd st.node_ids aid
      let newLinks := info.artists.filterMap (fun a =>
        if ("artist_" ++ a) ∈ ids then some (⟨"artist_" ++ a, aid, info.songs.length⟩ : GLink)
        else none)
      processAlbums rest ⟨st.nodes ++ [node], st.links ++ newLinks, ids⟩

structure GraphStats where
  total_nodes : ℕ
  total_links : ℕ
  artists : ℕ
  albums : ℕ
  deriving Repr, DecidableEq

structure GraphPayload where
  nodes : List GNode
  links : List GLink
  stats : GraphStats
  deriving Repr, DecidableEq

/-- Body of the `try` block of `get_graph_data` (lines 113-232). -/
def buildGraphFrom (m : List (String × List GSong)) (ad : List (String × AlbumInfo)) :
    Except String GraphPayload := do
  let st1 ← processArtists (sortedArtists m) ⟨[], [], []⟩
  let st2 ← processAlbums (sortedAlbums ad) st1
  pure ⟨st2.nodes, st2.links,
    ⟨st2.nodes.length, st2.links.length,
      st2.nodes.countP (fun n => n.type == "artist"),
      st2.nodes.countP (fun n => n.type == "album")⟩⟩

/-- Body of the `try` block applied to the groupings of the record
sequence. -/
def buildGraph (data : List GSong) : Except String GraphPayload :=
  buildGraphFrom (artistSongs data) (albumData data)

/-- Response of the graph route: the payload on success, or the structured
error of the `except` branch (lines 233-241) with empty node and link
lists. -/
inductive GraphResponse where
  | ok (payload : GraphPayload)
  | error (msg : String) (nodes : List GNode) (links : List GLink)
  deriving Repr, DecidableEq

/-- The `/api/graph-data` handler (lines 109-241). -/
def get_graph_data (data : List GSong) : GraphResponse :=
  match buildGraph data with
  | Except.ok p => GraphResponse.ok p
  | Except.error e => GraphResponse.error e [] []

/-- Node list of a graph response. -/
def respNodes : GraphResponse → List GNode
  | GraphResponse.ok p => p.nodes
  | GraphResponse.error _ ns _ => ns

/-- Link list of a graph response. -/
def respLinks : GraphResponse → List GLink
  | GraphResponse.ok p => p.links
  | GraphResponse.error _ _ ls => ls

/-! ### Records as the statistics route sees them

`get_statistics` indexes every field directly (`song['...']`), so its
domain is the well-formed record of the spec's §3 data model.  Only the
fields the route reads are kept. -/

structure Track where
  artist_names : String
  album_name : String
  album_release_date : String
  duration_ms : ℤ
  duration_minutes : Q
  popularity : ℤ
  explicit : Bool
  deriving Repr, DecidableEq

/-- Python `Counter` update: increment the key in place, creating it at
the end with count 1 on first occurrence. -/
def counterAdd (m : List (String × ℕ)) (k : String) : List (String × ℕ) :=
  if m.any (fun p => p.1 == k) then
    m.map (fun p => if p.1 == k then (p.1, p.2 + 1) else p)
  else m ++ [(k, 1)]

/-- Python `Counter(iterable)` as an association list in first-occurrence
order. -/
def counter (l : List String) : List (String × ℕ) := l.foldl counterAdd []

/-- Comparator underlying `Counter.most_common`: descending count,
stable. -/
def countGe (a b : String × ℕ) : Prop := b.2 ≤ a.2

instance : DecidableRel countGe := fun a b => Nat.decLe b.2 a.2

instance : IsTotal (String × ℕ) countGe := ⟨fun a b => Nat.le_total b.2 a.2⟩

instance : IsTrans (String × ℕ) countGe := ⟨fun _ _ _ hab hbc => le_trans hbc hab⟩

/-- Python `Counter.most_common(k)`: the `k` highest-count entries in
descending count order, ties in first-insertion order. -/
def mostCommon (k : ℕ) (m : List (String × ℕ)) : List (String × ℕ) :=
  (List.insertionSort countGe m).take k

/-- Token list the statistics route derives from one record
(`visualize.py` line 42): a plain `split(', ')` with no `'; '` fallback,
no trimming and no empty-token filtering. -/
def statsArtistTokens (s : Track) : List String := pySplit ',' ' ' s.artist_names

/-- The `all_artists` list (lines 40-43). -/
def all_artists (data : List Track) : List String := data.flatMap statsArtistTokens

/-- The `artist_counts` counter (line 45). -/
def artist_counts (data : List Track) : List (String × ℕ) := counter (all_artists data)

/-- The `top_artists` list (line 46). -/
def top_artists (data : List Track) : List (String × ℕ) :=
  mostCommon 10 (artist_counts data)

/-- The `album_counts` counter (line 49). -/
def album_counts (data : List Track) : List (String × ℕ) :=
  counter (data.map Track.album_name)

/-- The `top_albums` list (line 50). -/
def top_albums (data : List Track) : List (String × ℕ) :=
  mostCommon 10 (album_counts data)

/-- Python `int(s)` on a string: strip whitespace, optional sign, then
decimal digits (digit-group underscores, absent from release dates, are
outside the model).  `none` models the `ValueError` the code swallows. -/
def digitsToNat : List Char → Option ℕ
  | [] => none
  | ds =>
    if ds.all Char.isDigit then
      some (ds.foldl (fun acc c => acc * 10 + (c.toNat - 48)) 0)
    else none

/-- Python `int(s)` for strings. -/
def pyInt (s : String) : Option ℤ :=
  match stripL s.data with
  | '-' :: ds => (digitsToNat ds).map (fun n => -(n : ℤ))
  | '+' :: ds => (digitsToNat ds).map (fun n => (n : ℤ))
  | ds => (digitsToNat ds).map (fun n => (n : ℤ))

/-- First four characters of a string, Python `s[:4]`. -/
def take4 (s : String) : String := String.mk (s.data.take 4)

/-- The `years` list (lines 53-57): the year prefix of each record with a
truthy release-date field. -/
def yearsOf (data : List Track) : List String :=
  data.filterMap (fun s =>
    if s.album_release_date ≠ "" then some (take4 s.album_release_date) else none)

/-- Decade label (line 63-64): `f"{(int(year) // 10) * 10}s"` with
Python's flooring integer division. -/
def decadeLabel (y : ℤ) : String := toString (y.fdiv 10 * 10) ++ "s"

/-- The `decades` counter (lines 60-66): years failing `int()` are
skipped. -/
def decadesOf (data : List Track) : List (String × ℕ) :=
  (yearsOf data).foldl (fun acc year =>
    match pyInt year with
    | some y => counterAdd acc (decadeLabel y)
    | none => acc) []

/-- Python string comparison: lexicographic on code points. -/
def lexLe : List Char → List Char → Bool
  | [], _ => true
  | _ :: _, [] => false
  | a :: as, b :: bs => if a = b then lexLe as bs else decide (a.val < b.val)

/-- Comparator of `sorted(decades.items())`: ascending key string. -/
def decadeLe (a b : String × ℕ) : Prop := lexLe a.1.data b.1.data = true

instance : DecidableRel decadeLe := fun a b => instDecidableEqBool (lexLe a.1.data b.1.data) true

/-- The `decade_distribution` list (line 68). -/
def decade_distribution (data : List Track) : List (String × ℕ) :=
  List.insertionSort decadeLe (decadesOf data)

/-- Bucket membership tests of the `if`/`elif` chain (lines 81-90). -/
def popBucketPred (i : Fin 5) (p : ℤ) : Prop :=
  match i with
  | 0 => p ≤ 20
  | 1 => ¬p ≤ 20 ∧ p ≤ 40
  | 2 => ¬p ≤ 40 ∧ p ≤ 60
  | 3 => ¬p ≤ 60 ∧ p ≤ 80
  | 4 => ¬p ≤ 80

instance (i : Fin 5) (p : ℤ) : Decidable (popBucketPred i p) := by
  match i with
  | 0 => exact inferInstanceAs (Decidable (p ≤ 20))
  | 1 => exact inferInstanceAs (Decidable (¬p ≤ 20 ∧ p ≤ 40))
  | 2 => exact inferInstanceAs (Decidable (¬p ≤ 40 ∧ p ≤ 60))
  | 3 => exact inferInstanceAs (Decidable (¬p ≤ 60 ∧ p ≤ 80))
  | 4 => exact inferInstanceAs (Decidable (¬p ≤ 80))

/-- Label of each popularity bucket (lines 71-77). -/
def popBucketLabel : Fin 5 → String
  | 0 => "0-20"
  | 1 => "21-40"
  | 2 => "41-60"
  | 3 => "61-80"
  | 4 => "81-100"

/-- The `popularity_distribution` list (lines 71-92): the five fixed
buckets in dict insertion order, each with the count of records the
`if`/`elif` chain places in it. -/
def popularity_distribution (data : List Track) : List (String × ℕ) :=
  [(popBucketLabel 0, data.countP (fun s => decide (popBucketPred 0 s.popularity))),
   (popBucketLabel 1, data.countP (fun s => decide (popBucketPred 1 s.popularity))),
   (popBucketLabel 2, data.countP (fun s => decide (popBucketPred 2 s.popularity))),
   (popBucketLabel 3, data.countP (fun s => decide (popBucketPred 3 s.popularity))),
   (popBucketLabel 4, data.countP (fun s => decide (popBucketPred 4 s.popularity)))]

structure Statistics where
  total_songs : ℕ
  total_hours : Q
  avg_popularity : Q
  avg_duration_min : Q
  explicit_count : ℕ
  explicit_percentage : Q
  total_artists : ℕ
  total_albums : ℕ
  top_artists : List (String × ℕ)
  top_albums : List (String × ℕ)
  decade_distribution : List (String × ℕ)
  popularity_distribution : List (String × ℕ)
  deriving Repr, DecidableEq

/-- The `/api/statistics` handler (`visualize.py` lines 24-107). -/
def get_statistics (data : List Track) : Statistics :=
  let total_songs := data.length
  let total_duration_ms := (data.map Track.duration_ms).sum
  let total_hours := Q.norm total_duration_ms (1000 * 60 * 60)
  let avg_popularity : Q :=
    if 0 < total_songs then Q.norm (data.map Track.popularity).sum total_songs
    else Q.ofInt 0
  let avg_duration_min : Q :=
    if 0 < total_songs then Q.divNat (Q.sum (data.map Track.duration_minutes)) total_songs
    else Q.ofInt 0
  let explicit_count := data.countP Track.explicit
  { total_songs := total_songs
    total_hours := round2 total_hours
    avg_popularity := round1 avg_popularity
    avg_duration_min := round2 avg_duration_min
    explicit_count := explicit_count
    explicit_percentage :=
      if 0 < total_songs then round1 (Q.norm ((explicit_count : ℤ) * 100) total_songs)
      else Q.ofInt 0
    total_artists := (artist_counts data).length
    total_albums := (album_counts data).length
    top_artists := top_artists data
    top_albums := top_albums data
    decade_distribution := decade_distribution data
    popularity_distribution := popularity_distribution data }

/-! ### Characterization of the graph builder -/

/-- Mean popularity of an artist group (line 150): `sum / len` guarded by
`if songs else 0`. -/
def artistAvg (songs : List GSong) : Q :=
  if songs = [] then Q.ofInt 0 else Q.norm (popSum songs) songs.length

/-- The node built for one retained artist entry (lines 151-157). -/
def artistNodeOf (e : String × List GSong) : GNode :=
  ⟨"artist_" ++ e.1, e.1, "artist", artistSize e.2.length, round1 (artistAvg e.2)⟩

/-- The node built for one retained album entry (lines 202-208). -/
def albumNodeOf (e : String × AlbumInfo) : GNode :=
  ⟨"album_" ++ e.1, truncName e.1, "album", albumSize e.2.songs.length,
    round1 (Q.norm (popSum e.2.songs) e.2.songs.length)⟩

theorem processArtists_shape (l : List (String × List GSong)) :
    ∀ st : GBuild, ∃ st', processArtists l st = Except.ok st' ∧
      st'.nodes = st.nodes ++ l.map artistNodeOf ∧
      st'.links = st.links ∧
      st'.node_ids = (l.map (fun p => "artist_" ++ p.1)).foldl setAdd st.node_ids := by
  induction l with
  | nil => intro st; exact ⟨st, rfl, by simp, rfl, rfl⟩
  | cons e rest ih =>
    intro st
    obtain ⟨a, songs⟩ := e
    by_cases hs : songs = []
    · obtain ⟨st', h1, h2, h3, h4⟩ :=
        ih ⟨st.nodes ++ [artistNodeOf (a, songs)], st.links, setAdd st.node_ids ("artist_" ++ a)⟩
      refine ⟨st', ?_, ?_, h3, ?_⟩
      · simp only [processArtists, hs, if_pos]
        simpa [artistNodeOf, artistAvg, hs] using h1
      · simpa [artistNodeOf] using h2
      · simpa using h4
    · obtain ⟨st', h1, h2, h3, h4⟩ :=
        ih ⟨st.nodes ++ [artistNodeOf (a, songs)], st.links, setAdd st.node_ids ("artist_" ++ a)⟩
      have hlen : songs.length ≠ 0 := by
        simp [hs]
      refine ⟨st', ?_, ?_, h3, ?_⟩
      · simp only [processArtists, hs, if_neg]
        simpa [pyDiv, hlen, artistNodeOf, artistAvg, hs] using h1
      · simpa [artistNodeOf] using h2
      · simpa using h4

theorem processAlbums_shape (l : List (String × AlbumInfo)) :
    ∀ st : GBuild, ∃ st', processAlbums l st = Except.ok st' ∧
      st'.nodes = st.nodes ++ (l.filter (fun e => !e.2.songs.isEmpty)).map albumNodeOf := by
  induction l with
  | nil => intro st; exact ⟨st, rfl, by simp⟩
  | cons e rest ih =>
    intro st
    obtain ⟨album, info⟩ := e
    by_cases hs : info.songs = []
    · obtain ⟨st', h1, h2⟩ := ih st
      refine ⟨st', ?_, ?_⟩
      · simp only [processAlbums, hs, if_pos]
        exact h1
      · rw [h2]
        simp [List.filter_cons, hs]
    · have hlen : info.songs.length ≠ 0 := by simp [hs]
      obtain ⟨st', h1, h2⟩ := ih
        ⟨st.nodes ++ [albumNodeOf (album, info)],
         st.links ++ info.artists.filterMap (fun a =>
           if ("artist_" ++ a) ∈ setAdd st.node_ids ("album_" ++ album) then
             some (⟨"artist_" ++ a, "album_" ++ album, info.songs.length⟩ : GLink)
           else none),
         setAdd st.node_ids ("album_" ++ album)⟩
      refine ⟨st', ?_, ?_⟩
      · simp only [processAlbums, hs, if_neg]
        simpa [pyDiv, hlen, albumNodeOf] using h1
      · rw [h2]
        simp [List.filter_cons, hs, albumNodeOf]

theorem processAlbums_links_sub (l : List (String × AlbumInfo)) :
    ∀ st st' : GBuild, processAlbums l st = Except.ok st' →
      ∀ lnk ∈ st'.links, lnk ∈ st.links ∨ ∃ e ∈ l, ¬e.2.songs = [] ∧
        lnk.target = "album_" ++ e.1 ∧ lnk.value = e.2.songs.length ∧
        ∃ a ∈ e.2.artists, lnk.source = "artist_" ++ a := by
  induction l with
  | nil =>
    intro st st' h lnk hm
    cases h
    exact Or.inl hm
  | cons e rest ih =>
    intro st st' h lnk hm
    obtain ⟨album, info⟩ := e
    by_cases hs : info.songs = []
    · simp only [processAlbums, hs, if_pos] at h
      rcases ih st st' h lnk hm with h1 | ⟨e', he', h2⟩
      · exact Or.inl h1
      · exact Or.inr ⟨e', List.mem_cons_of_mem _ he', h2⟩
    · have hlen : info.songs.length ≠ 0 := by simp [hs]
      simp only [processAlbums, hs, if_neg, pyDiv, hlen, if_false, reduceIte] at h
      rcases ih _ _ h lnk hm with h1 | ⟨e', he', h2⟩
      · rcases List.mem_append.mp h1 with h3 | h3
        · exact Or.inl h3
        · rcases List.mem_filterMap.mp h3 with ⟨a, ha, hfa⟩
          by_cases hc : ("artist_" ++ a) ∈ setAdd st.node_ids ("album_" ++ album)
          · rw [if_pos hc] at hfa
            refine Or.inr ⟨(album, info), List.mem_cons_self _ _, hs, ?_, ?_, a, ha, ?_⟩
            · cases hfa; rfl
            · cases hfa; rfl
            · cases hfa; rfl
          · rw [if_neg hc] at hfa
            cases hfa
      · exact Or.inr ⟨e', List.mem_cons_of_mem _ he', h2⟩

/-- Endpoint well-formedness: every registered node id belongs to a node,
and every link's source and target do too. -/
def endpointsOk (st : GBuild) : Prop :=
  (∀ i ∈ st.node_ids, i ∈ st.nodes.map GNode.id) ∧
  ∀ lnk ∈ st.links, lnk.source ∈ st.nodes.map GNode.id ∧
    lnk.target ∈ st.nodes.map GNode.id

theorem processAlbums_endpoints (l : List (String × AlbumInfo)) :
    ∀ st st' : GBuild, processAlbums l st = Except.ok st' →
      endpointsOk st → endpointsOk st' := by
  induction l with
  | nil =>
    intro st st' h hok
    cases h
    exact hok
  | cons e rest ih =>
    intro st st' h hok
    obtain ⟨album, info⟩ := e
    by_cases hs : info.songs = []
    · simp only [processAlbums, hs, if_pos] at h
      exact ih st st' h hok
    · have hlen : info.songs.length ≠ 0 := by simp [hs]
      simp only [processAlbums, hs, if_neg, pyDiv, hlen, if_false, reduceIte] at h
      refine ih _ _ h ⟨?_, ?_⟩
      · intro i hi
        simp only []
        rcases hi with hi
        have : i ∈ setAdd st.node_ids ("album_" ++ album) := hi
        unfold setAdd at this
        by_cases hmem : ("album_" ++ album) ∈ st.node_ids
        · rw [if_pos hmem] at this
          have := hok.1 i this
          simp only [List.map_append]
          exact List.mem_append_left _ this
        · rw [if_neg hmem] at this
          rcases List.mem_append.mp this with h1 | h1
          · have := hok.1 i h1
            simp only [List.map_append]
            exact List.mem_append_left _ this
          · simp only [List.mem_singleton] at h1
            subst h1
            simp
      · intro lnk hlnk
        rcases List.mem_append.mp hlnk with h1 | h1
        · have := hok.2 lnk h1
          constructor
          · simp only [List.map_append]
            exact List.mem_append_left _ this.1
          · simp only [List.map_append]
            exact List.mem_append_left _ this.2
        · rcases List.mem_filterMap.mp h1 with ⟨a, ha, hfa⟩
          by_cases hc : ("artist_" ++ a) ∈ setAdd st.node_ids ("album_" ++ album)
          · rw [if_pos hc] at hfa
            obtain rfl : (⟨"artist_" ++ a, "album_" ++ album, info.songs.length⟩ : GLink) = lnk := by
              cases hfa; rfl
            constructor
            · unfold setAdd at hc
              by_cases hmem : ("album_" ++ album) ∈ st.node_ids
              · rw [if_pos hmem] at hc
                have := hok.1 _ hc
                simp only [List.map_append]
                exact List.mem_append_left _ this
              · rw [if_neg hmem] at hc
                rcases List.mem_append.mp hc with h2 | h2
                · have := hok.1 _ h2
                  simp only [List.map_append]
                  exact List.mem_append_left _ this
                · simp only [List.mem_singleton] at h2
                  rw [h2]
                  simp
            · simp
          · rw [if_neg hc] at hfa
            cases hfa

theorem setAdd_fold_subset (xs : List String) :
    ∀ init : List String, ∀ y ∈ xs.foldl setAdd init, y ∈ init ∨ y ∈ xs := by
  induction xs with
  | nil => intro init y hy; exact Or.inl hy
  | cons x rest ih =>
    intro init y hy
    simp only [List.foldl_cons] at hy
    rcases ih (setAdd init x) y hy with h1 | h1
    · unfold setAdd at h1
      by_cases hm : x ∈ init
      · rw [if_pos hm] at h1
        exact Or.inl h1
      · rw [if_neg hm] at h1
        rcases List.mem_append.mp h1 with h2 | h2
        · exact Or.inl h2
        · simp only [List.mem_singleton] at h2
          subst h2
          exact Or.inr (List.mem_cons_self _ _)
    · exact Or.inr (List.mem_cons_of_mem _ h1)

/-- Single characterization of a successful graph build from the two
group mappings: the node list, the origin of every link, endpoint
well-formedness and the stats block. -/
theorem buildGraphFrom_shape (m : List (String × List GSong))
    (ad : List (String × AlbumInfo)) :
    ∃ p : GraphPayload, buildGraphFrom m ad = Except.ok p ∧
      p.nodes = (sortedArtists m).map artistNodeOf ++
        ((sortedAlbums ad).filter (fun e => !e.2.songs.isEmpty)).map albumNodeOf ∧
      (∀ lnk ∈ p.links, ∃ e ∈ sortedAlbums ad, ¬e.2.songs = [] ∧
        lnk.target = "album_" ++ e.1 ∧ lnk.value = e.2.songs.length ∧
        ∃ a ∈ e.2.artists, lnk.source = "artist_" ++ a) ∧
      (∀ lnk ∈ p.links, lnk.source ∈ p.nodes.map GNode.id ∧
        lnk.target ∈ p.nodes.map GNode.id) ∧
      p.stats = ⟨p.nodes.length, p.links.length,
        p.nodes.countP (fun n => n.type == "artist"),
        p.nodes.countP (fun n => n.type == "album")⟩ := by
  obtain ⟨st1, ha, han, hal, hai⟩ :=
    processArtists_shape (sortedArtists m) ⟨[], [], []⟩
  obtain ⟨st2, hb, hbn⟩ := processAlbums_shape (sortedAlbums ad) st1
  have hok1 : endpointsOk st1 := by
    constructor
    · intro i hi
      rw [hai] at hi
      rcases setAdd_fold_subset _ _ i hi with h1 | h1
      · simp at h1
      · rw [han]
        simp only [List.nil_append, List.map_map]
        simpa [Function.comp, artistNodeOf] using h1
    · intro lnk hlnk
      rw [hal] at hlnk
      simp at hlnk
  have hok2 : endpointsOk st2 := processAlbums_endpoints _ _ _ hb hok1
  refine ⟨⟨st2.nodes, st2.links,
      ⟨st2.nodes.length, st2.links.length,
        st2.nodes.countP (fun n => n.type == "artist"),
        st2.nodes.countP (fun n => n.type == "album")⟩⟩, ?_, ?_, ?_, ?_, rfl⟩
  · unfold buildGraphFrom
    rw [ha]
    simp only [Bind.bind, Except.bind]
    rw [hb]
    rfl
  · simp [hbn, han]
  · intro lnk hlnk
    rcases processAlbums_links_sub _ _ _ hb lnk hlnk with h1 | h1
    · rw [hal] at h1
      simp at h1
    · exact h1
  · intro lnk hlnk
    exact hok2.2 lnk hlnk

/-- The characterization above, applied to the groupings the route
derives from the record sequence. -/
theorem buildGraph_shape (data : List GSong) :
    ∃ p : GraphPayload, buildGraph data = Except.ok p ∧
      p.nodes = (sortedArtists (artistSongs data)).map artistNodeOf ++
        ((sortedAlbums (albumData data)).filter (fun e => !e.2.songs.isEmpty)).map albumNodeOf ∧
      (∀ lnk ∈ p.links, ∃ e ∈ sortedAlbums (albumData data), ¬e.2.songs = [] ∧
        lnk.target = "album_" ++ e.1 ∧ lnk.value = e.2.songs.length ∧
        ∃ a ∈ e.2.artists, lnk.source = "artist_" ++ a) ∧
      (∀ lnk ∈ p.links, lnk.source ∈ p.nodes.map GNode.id ∧
        lnk.target ∈ p.nodes.map GNode.id) ∧
      p.stats = ⟨p.nodes.length, p.links.length,
        p.nodes.countP (fun n => n.type == "artist"),
        p.nodes.countP (fun n => n.type == "album")⟩ :=
  buildGraphFrom_shape (artistSongs data) (albumData data)

/-! ### Concrete record sequences used by counterexamples and witnesses -/

/-- Two songs on the same album `X`, one by artist `A` and one by `B`. -/
def exAB : List GSong := [⟨some "A", some "X", some 0⟩, ⟨some "B", some "X", some 0⟩]

/-- One song with an empty artist-names field on album `X`. -/
def exBlank : List GSong := [⟨some "", some "X", some 5⟩]

/-! ### Claims -/

/-- C5: for every input record sequence, including records with missing
fields, the graph route never propagates an unhandled exception — here it
in fact always returns a `{nodes, links, stats}` payload, the `except`
branch (structured error with empty node and link lists) being the only
other possible shape of `GraphResponse`. -/
theorem graph_route_total (data : List GSong) :
    ∃ p : GraphPayload, get_graph_data data = GraphResponse.ok p := by
  obtain ⟨p, hp, -, -, -, -⟩ := buildGraph_shape data
  exact ⟨p, by simp [get_graph_data, hp]⟩

/-- C4: every edge of the graph payload has both endpoints among the
emitted nodes, and an artist id absent from the node list is the source
of no edge (the pairing is silently dropped, no fallback node exists). -/
theorem edge_endpoints (data : List GSong) :
    (∀ lnk ∈ respLinks (get_graph_data data),
      (∃ n ∈ respNodes (get_graph_data data), n.id = lnk.source) ∧
      (∃ n ∈ respNodes (get_graph_data data), n.id = lnk.target)) ∧
    (∀ a : String, ("artist_" ++ a) ∉ (respNodes (get_graph_data data)).map GNode.id →
      ∀ lnk ∈ respLinks (get_graph_data data), lnk.source ≠ "artist_" ++ a) := by
  obtain ⟨p, hp, -, -, hend, -⟩ := buildGraph_shape data
  have hresp : get_graph_data data = GraphResponse.ok p := by simp [get_graph_data, hp]
  rw [hresp]
  constructor
  · intro lnk hlnk
    obtain ⟨h1, h2⟩ := hend lnk hlnk
    constructor
    · rcases List.mem_map.mp h1 with ⟨n, hn, hid⟩
      exact ⟨n, hn, hid⟩
    · rcases List.mem_map.mp h2 with ⟨n, hn, hid⟩
      exact ⟨n, hn, hid⟩
  · intro a hnot lnk hlnk heq
    obtain ⟨h1, -⟩ := hend lnk hlnk
    rw [heq] at h1
    exact hnot h1

/-- Witness for C4 at the concrete two-song input. -/
theorem edge_endpoints_witness :
    (⟨"artist_A", "album_X", 2⟩ : GLink) ∈ respLinks (get_graph_data exAB) ∧
    ∃ n ∈ respNodes (get_graph_data exAB), n.id = "artist_A" := by
  have h := ((edge_endpoints exAB).1 ⟨"artist_A", "album_X", 2⟩ (by decide)).1
  exact ⟨by decide, h⟩

theorem blank_no_delims {s : String} (h : pyStrip s = "") :
    pyContains ',' ' ' s = false ∧ pyContains ';' ' ' s = false := by
  have hws := stripL_all_ws ((pyStrip_eq_empty_iff s).mp h)
  constructor
  · by_contra hc
    have hc2 : contains2 ',' ' ' s.data = true := by
      simpa [pyContains] using hc
    have := hws ',' (contains2_mem hc2)
    simp [wsChar] at this
  · by_contra hc
    have hc2 : contains2 ';' ' ' s.data = true := by
      simpa [pyContains] using hc
    have := hws ';' (contains2_mem hc2)
    simp [wsChar] at this

theorem pySplitArtists_of_blank {s : String} (h : pyStrip s = "") :
    pySplitArtists s = [pyStrip s] := by
  unfold pySplitArtists
  rw [(blank_no_delims h).1, (blank_no_delims h).2]
  simp

/-- Tokens surviving the artist filter are stripped and nonempty. -/
theorem keepTokens_mem {l : List String} {t : String} (ht : t ∈ keepTokens l) :
    pyStrip t = t ∧ t ≠ "" := by
  rcases List.mem_filterMap.mp ht with ⟨a, -, hfa⟩
  by_cases hc : (a ≠ "" && pyStrip a ≠ "") = true
  · rw [if_pos hc] at hfa
    obtain rfl : pyStrip a = t := by cases hfa; rfl
    refine ⟨pyStrip_idem a, ?_⟩
    have := (Bool.and_eq_true_iff.mp hc).2
    simpa using this
  · rw [if_neg hc] at hfa
    cases hfa

/-- On a list of already-stripped tokens, the double-strip filter of the
code is the plain removal of empty tokens. -/
theorem keepTokens_of_stripped {l : List String} (h : ∀ a ∈ l, pyStrip a = a) :
    keepTokens l = l.filter (fun t => t ≠ "") := by
  induction l with
  | nil => rfl
  | cons a t ih =>
    have ha := h a (List.mem_cons_self _ _)
    have iht := ih (fun b hb => h b (List.mem_cons_of_mem _ hb))
    by_cases he : a = ""
    · subst he
      simp only [keepTokens, List.filterMap_cons, List.filter_cons] at iht ⊢
      simpa using iht
    · simp only [keepTokens, List.filterMap_cons, List.filter_cons] at iht ⊢
      simp [ha, he] at iht ⊢
      exact iht

/-- The claim's normalizer, written from the spec's §4.1 words: split on
the priority delimiter, else the whole trimmed field; trim every token,
drop empty tokens. -/
def claimNormalize (s : String) : List String :=
  ((if pyContains ',' ' ' s then pySplit ',' ' ' s
    else if pyContains ';' ' ' s then pySplit ';' ' ' s
    else [s]).map pyStrip).filter (fun t => t ≠ "")

/-- C3: the graph builder's artist-name normalizer agrees with the spec's
delimiter-priority algorithm; a blank field yields the empty list, every
token is trimmed and nonempty, and the three worked examples hold. -/
theorem artist_normalizer :
    (∀ s : String, normalize_artists s = claimNormalize s) ∧
    (∀ s : String, pyStrip s = "" → normalize_artists s = []) ∧
    (∀ (s t : String), t ∈ normalize_artists s → pyStrip t = t ∧ t ≠ "") ∧
    normalize_artists "Artist; Other" = ["Artist", "Other"] ∧
    normalize_artists "Solo Name" = ["Solo Name"] ∧
    normalize_artists "" = [] := by
  have hmap : ∀ l : List String, ∀ a ∈ l.map pyStrip, pyStrip a = a := by
    intro l a ha
    rcases List.mem_map.mp ha with ⟨b, -, hb⟩
    rw [← hb]
    exact pyStrip_idem b
  have heq : ∀ s : String, normalize_artists s = claimNormalize s := by
    intro s
    by_cases hs : s = ""
    · subst hs
      decide
    · unfold normalize_artists claimNormalize pySplitArtists
      rw [if_neg hs]
      by_cases h1 : pyContains ',' ' ' s
      · rw [if_pos h1, if_pos h1]
        exact keepTokens_of_stripped (hmap _)
      · rw [if_neg h1, if_neg h1]
        by_cases h2 : pyContains ';' ' ' s
        · rw [if_pos h2, if_pos h2]
          exact keepTokens_of_stripped (hmap _)
        · rw [if_neg h2, if_neg h2]
          have : keepTokens [pyStrip s] = [pyStrip s].filter (fun t => t ≠ "") :=
            keepTokens_of_stripped (by
              intro a ha
              simp only [List.mem_singleton] at ha
              subst ha
              exact pyStrip_idem s)
          simpa using this
  refine ⟨heq, ?_, ?_, by decide, by decide, by decide⟩
  · intro s h
    unfold normalize_artists
    by_cases hs : s = ""
    · simp [hs]
    · rw [if_neg hs, pySplitArtists_of_blank h, h]
      decide
  · intro s t ht
    unfold normalize_artists at ht
    by_cases hs : s = ""
    · rw [if_pos hs] at ht
      cases ht
    · rw [if_neg hs] at ht
      exact keepTokens_mem ht

/-- Witness for C3: the blank and delimiter cases at concrete strings. -/
theorem artist_normalizer_witness :
    pyStrip "  " = "" ∧ normalize_artists "  " = [] ∧
    normalize_artists " A ,  B" = claimNormalize " A ,  B" := by
  exact ⟨by decide, artist_normalizer.2.1 "  " (by decide), artist_normalizer.1 " A ,  B"⟩

/-- C9: node sizes are the documented clamps of the group record count
and always lie inside the clamp range; an artist with 1000 records gets
size 30. -/
theorem node_size_clamped :
    (∀ n : ℕ, artistSize n = min (max (n * 2) 5) 30 ∧ 5 ≤ artistSize n ∧ artistSize n ≤ 30) ∧
    (∀ n : ℕ, albumSize n = min (max (n + 5) 5) 25 ∧ 5 ≤ albumSize n ∧ albumSize n ≤ 25) ∧
    artistSize 1000 = 30 ∧
    (∀ data : List GSong, ∀ node ∈ respNodes (get_graph_data data),
      (node.type = "artist" → ∃ e ∈ sortedArtists (artistSongs data),
        node.id = "artist_" ++ e.1 ∧ node.size = artistSize e.2.length) ∧
      (node.type = "album" → ∃ e ∈ sortedAlbums (albumData data),
        node.id = "album_" ++ e.1 ∧ node.size = albumSize e.2.songs.length) ∧
      5 ≤ node.size ∧
      (node.type = "artist" → node.size ≤ 30) ∧
      (node.type = "album" → node.size ≤ 25)) := by
  have hart : ∀ n : ℕ, artistSize n = min (max (n * 2) 5) 30 ∧
      5 ≤ artistSize n ∧ artistSize n ≤ 30 := by
    intro n
    unfold artistSize
    omega
  have halb : ∀ n : ℕ, albumSize n = min (max (n + 5) 5) 25 ∧
      5 ≤ albumSize n ∧ albumSize n ≤ 25 := by
    intro n
    unfold albumSize
    omega
  refine ⟨hart, halb, by decide, ?_⟩
  intro data node hnode
  obtain ⟨p, hp, hnodes, -, -, -⟩ := buildGraph_shape data
  have hresp : get_graph_data data = GraphResponse.ok p := by simp [get_graph_data, hp]
  rw [hresp] at hnode
  simp only [respNodes] at hnode
  rw [hnodes] at hnode
  rcases List.mem_append.mp hnode with hmem | hmem
  · rcases List.mem_map.mp hmem with ⟨e, he, hne⟩
    subst hne
    refine ⟨fun _ => ⟨e, he, rfl, rfl⟩, fun habs => ?_, (hart e.2.length).2.1,
      fun _ => (hart e.2.length).2.2, fun habs => ?_⟩
    · simp [artistNodeOf] at habs
    · simp [artistNodeOf] at habs
  · rcases List.mem_map.mp hmem with ⟨e, he, hne⟩
    subst hne
    have he2 : e ∈ sortedAlbums (albumData data) := List.mem_of_mem_filter he
    refine ⟨fun habs => ?_, fun _ => ⟨e, he2, rfl, rfl⟩, (halb e.2.songs.length).2.1,
      fun habs => ?_, fun _ => (halb e.2.songs.length).2.2⟩
    · simp [albumNodeOf] at habs
    · simp [albumNodeOf] at habs

/-- Witness for C9: the artist node of the concrete two-song input. -/
theorem node_size_clamped_witness :
    (⟨"artist_A", "A", "artist", 5, Q.ofInt 0⟩ : GNode) ∈ respNodes (get_graph_data exAB) ∧
    ∃ e ∈ sortedArtists (artistSongs exAB),
      ("artist_A" : String) = "artist_" ++ e.1 ∧ (5 : ℕ) = artistSize e.2.length := by
  have h := (node_size_clamped.2.2.2 exAB ⟨"artist_A", "A", "artist", 5, Q.ofInt 0⟩
    (by decide)).1 rfl
  exact ⟨by decide, h⟩

/-- C10: a record with an empty or blank artist-names field contributes to
no artist group but is still appended to its resolved album's group, and
on a concrete input the graph holds an isolated album node with no
incident edges. -/
theorem blank_artist_isolated_album :
    (∀ (m : List (String × List GSong)) (song : GSong),
      pyStrip (song.artist_names.getD "") = "" → artistStep m song = m) ∧
    (∀ (m : List (String × AlbumInfo)) (song : GSong),
      ∃ info, (resolveAlbum song, info) ∈ albumStep m song ∧ song ∈ info.songs) ∧
    (respNodes (get_graph_data exBlank)).map GNode.id = ["album_X"] ∧
    respLinks (get_graph_data exBlank) = [] := by
  refine ⟨?_, ?_, by decide, by decide⟩
  · intro m song h
    unfold artistStep
    by_cases he : song.artist_names.getD "" = ""
    · simp [he]
    · rw [if_neg he]
      have hsplit : pySplitArtists (song.artist_names.getD "") =
          [pyStrip (song.artist_names.getD "")] := by
        unfold pySplitArtists
        rw [(blank_no_delims h).1, (blank_no_delims h).2]
        simp
      rw [hsplit, h]
      simp [keepTokens]
  · intro m song
    simp only [albumStep]
    by_cases hany : m.any (fun p => p.1 == resolveAlbum song)
    · rw [if_pos hany]
      rcases List.any_eq_true.mp hany with ⟨x, hx, hxk⟩
      have hxk2 : x.1 = resolveAlbum song := by simpa using hxk
      refine ⟨⟨(keepTokens (pySplitArtistsAlbum (song.artist_names.getD ""))).foldl setAdd
          x.2.artists, x.2.songs ++ [song]⟩, ?_, by simp⟩
      refine List.mem_map.mpr ⟨x, hx, ?_⟩
      rw [if_pos (by simpa using hxk2)]
      rw [hxk2]
    · rw [if_neg hany]
      refine ⟨⟨(keepTokens (pySplitArtistsAlbum (song.artist_names.getD ""))).foldl setAdd
          ([] : List String), [] ++ [song]⟩, ?_, by simp⟩
      refine List.mem_map.mpr ⟨(resolveAlbum song, ⟨[], []⟩), ?_, ?_⟩
      · exact List.mem_append_right _ (List.mem_singleton.mpr rfl)
      · simp

/-- Witness for C10: a whitespace-only artist field leaves the artist
grouping unchanged. -/
theorem blank_artist_isolated_album_witness :
    pyStrip ((some " " : Option String).getD "") = "" ∧
    artistStep [] ⟨some " ", some "X", some 0⟩ = [] := by
  refine ⟨by decide, ?_⟩
  exact blank_artist_isolated_album.1 [] ⟨some " ", some "X", some 0⟩ (by decide)

/-- Number of tracks of the resolved album group that are attributed to
the given artist, the quantity the spec's GraphEdge sentence describes. -/
def claimWeight (data : List GSong) (artist album : String) : ℕ :=
  match (albumData data).lookup album with
  | some info => info.songs.countP (fun s =>
      decide (artist ∈ keepTokens (pySplitArtistsAlbum (s.artist_names.getD ""))))
  | none => 0

/-- Counterexample to C1 as stated: on `exAB` the edge from artist `A` to
album `X` carries weight 2 (the album's total song count) although only
one track of `X` is attributed to `A`. -/
theorem edge_weight_counterexample :
    (⟨"artist_A", "album_X", 2⟩ : GLink) ∈ respLinks (get_graph_data exAB) ∧
    claimWeight exAB "A" "X" = 1 ∧ (2 : ℕ) ≠ 1 := by
  exact ⟨by decide, by decide, by decide⟩

/-- C1 amended: every emitted edge carries weight equal to the *total*
record count of the target album's group. -/
theorem edge_weight_is_album_count (data : List GSong) :
    ∀ lnk ∈ respLinks (get_graph_data data),
      ∃ e ∈ sortedAlbums (albumData data),
        lnk.target = "album_" ++ e.1 ∧ lnk.value = e.2.songs.length := by
  obtain ⟨p, hp, -, hlinks, -, -⟩ := buildGraph_shape data
  have hresp : get_graph_data data = GraphResponse.ok p := by simp [get_graph_data, hp]
  rw [hresp]
  intro lnk hlnk
  obtain ⟨e, he, -, ht, hv, -⟩ := hlinks lnk hlnk
  exact ⟨e, he, ht, hv⟩

/-- Witness for the amended C1 at the concrete two-song input. -/
theorem edge_weight_is_album_count_witness :
    (⟨"artist_A", "album_X", 2⟩ : GLink) ∈ respLinks (get_graph_data exAB) ∧
    ∃ e ∈ sortedAlbums (albumData exAB),
      ("album_X" : String) = "album_" ++ e.1 ∧ (2 : ℕ) = e.2.songs.length := by
  have h := edge_weight_is_album_count exAB ⟨"artist_A", "album_X", 2⟩ (by decide)
  exact ⟨by decide, h⟩

/-- Lower inclusive bound of each popularity bucket, from the spec's
bucket labels. -/
def popBucketLo : Fin 5 → ℤ
  | 0 => 0
  | 1 => 21
  | 2 => 41
  | 3 => 61
  | 4 => 81

/-- Upper inclusive bound of each popularity bucket. -/
def popBucketHi : Fin 5 → ℤ
  | 0 => 20
  | 1 => 40
  | 2 => 60
  | 3 => 80
  | 4 => 100

theorem bucket_ites (p : ℤ) :
    (if popBucketPred 0 p then (1 : ℕ) else 0) + (if popBucketPred 1 p then (1 : ℕ) else 0) +
    (if popBucketPred 2 p then (1 : ℕ) else 0) + (if popBucketPred 3 p then (1 : ℕ) else 0) +
    (if popBucketPred 4 p then (1 : ℕ) else 0) = 1 := by
  simp only [popBucketPred]
  by_cases h1 : p ≤ 20 <;> by_cases h2 : p ≤ 40 <;> by_cases h3 : p ≤ 60 <;>
    by_cases h4 : p ≤ 80 <;> simp [h1, h2, h3, h4] <;> omega

/-- C7: the five popularity-bucket counts always sum to the record count,
each popularity value falls in exactly one bucket, and for values in
`[0, 100]` the bucket a record lands in is the one whose inclusive range
contains its popularity. -/
theorem popularity_buckets :
    (∀ data : List Track,
      ((popularity_distribution data).map Prod.snd).sum = data.length) ∧
    (∀ p : ℤ, ∃! i : Fin 5, popBucketPred i p) ∧
    (∀ p : ℤ, 0 ≤ p → p ≤ 100 → ∀ i : Fin 5,
      popBucketPred i p ↔ (popBucketLo i ≤ p ∧ p ≤ popBucketHi i)) := by
  refine ⟨?_, ?_, ?_⟩
  · intro data
    induction data with
    | nil => rfl
    | cons s d ih =>
      have hb := bucket_ites s.popularity
      simp only [popularity_distribution, List.countP_cons, List.map_cons, List.map_nil,
        List.sum_cons, List.sum_nil, decide_eq_true_eq, List.length_cons] at ih hb ⊢
      omega
  · intro p
    by_cases h1 : p ≤ 20
    · refine ⟨0, h1, fun j hj => ?_⟩
      fin_cases j <;> simp [popBucketPred] at hj ⊢ <;> omega
    · by_cases h2 : p ≤ 40
      · refine ⟨1, ⟨h1, h2⟩, fun j hj => ?_⟩
        fin_cases j <;> simp [popBucketPred] at hj ⊢ <;> omega
      · by_cases h3 : p ≤ 60
        · refine ⟨2, ⟨h2, h3⟩, fun j hj => ?_⟩
          fin_cases j <;> simp [popBucketPred] at hj ⊢ <;> omega
        · by_cases h4 : p ≤ 80
          · refine ⟨3, ⟨h3, h4⟩, fun j hj => ?_⟩
            fin_cases j <;> simp [popBucketPred] at hj ⊢ <;> omega
          · refine ⟨4, h4, fun j hj => ?_⟩
            fin_cases j <;> simp [popBucketPred] at hj ⊢ <;> omega
  · intro p h0 h100 i
    fin_cases i <;> simp [popBucketPred, popBucketLo, popBucketHi] <;> omega

/-- Witness for C7: popularity 50 lands in the 41-60 bucket, and the
bucket counts of a one-record list sum to 1. -/
theorem popularity_buckets_witness :
    popBucketPred 2 (50 : ℤ) ∧
    ((popularity_distribution [⟨"A", "X", "1999", 0, Q.ofInt 0, 50, false⟩]).map Prod.snd).sum
      = 1 := by
  constructor
  · exact (popularity_buckets.2.2 50 (by decide) (by decide) 2).mpr (by decide)
  · exact popularity_buckets.1 [⟨"A", "X", "1999", 0, Q.ofInt 0, 50, false⟩]

/-- C8: on the empty record sequence the statistics are all defined zero
or empty values (the popularity histogram keeps its five fixed buckets,
each with count zero) and the graph is empty. -/
theorem empty_input_defined :
    get_statistics [] =
      { total_songs := 0, total_hours := Q.ofInt 0, avg_popularity := Q.ofInt 0,
        avg_duration_min := Q.ofInt 0, explicit_count := 0,
        explicit_percentage := Q.ofInt 0, total_artists := 0, total_albums := 0,
        top_artists := [], top_albums := [], decade_distribution := [],
        popularity_distribution :=
          [("0-20", 0), ("21-40", 0), ("41-60", 0), ("61-80", 0), ("81-100", 0)] } ∧
    respNodes (get_graph_data []) = [] ∧ respLinks (get_graph_data []) = [] := by
  refine ⟨by decide, by decide, by decide⟩

/-! ### Stability of the sort model -/

theorem orderedInsert_filter_false {α : Type} {r : α → α → Prop} [DecidableRel r]
    {x : α} {p : α → Bool} (hx : p x = false) :
    ∀ l : List α, (List.orderedInsert r x l).filter p = l.filter p := by
  intro l
  induction l with
  | nil => simp [hx]
  | cons b t ih =>
    by_cases hr : r x b
    · simp [List.orderedInsert, hr, hx]
    · simp only [List.orderedInsert, if_neg hr, List.filter_cons]
      by_cases hb : p b
      · simp [hb, ih]
      · simp [hb, ih]

theorem orderedInsert_filter_true {α : Type} {r : α → α → Prop} [DecidableRel r]
    {x : α} {p : α → Bool} (hx : p x = true) :
    ∀ l : List α, (∀ y ∈ l, p y = true → r x y) →
      (List.orderedInsert r x l).filter p = x :: l.filter p := by
  intro l
  induction l with
  | nil => simp [hx]
  | cons b t ih =>
    intro h
    by_cases hr : r x b
    · simp [List.orderedInsert, hr, hx]
    · have hb : p b = false := by
        by_contra hb'
        exact hr (h b (List.mem_cons_self _ _) (by simpa using hb'))
      simp only [List.orderedInsert, if_neg hr, List.filter_cons, hb]
      simp only [Bool.false_eq_true, if_false]
      exact ih (fun y hy hpy => h y (List.mem_cons_of_mem _ hy) hpy)

/-- Stability of the sort model, in filter form: the elements whose key
is tied keep their original relative order. -/
theorem insertionSort_stable_filter {α : Type} {r : α → α → Prop} [DecidableRel r]
    {p : α → Bool} (hcompat : ∀ x y, p x = true → p y = true → r x y) :
    ∀ l : List α, (List.insertionSort r l).filter p = l.filter p := by
  intro l
  induction l with
  | nil => rfl
  | cons a t ih =>
    show (List.orderedInsert r a (List.insertionSort r t)).filter p = _
    by_cases hp : p a
    · rw [orderedInsert_filter_true hp _ (fun y _ hpy => hcompat a y hp hpy), ih]
      simp [List.filter_cons, hp]
    · have hp' : p a = false := by simpa using hp
      rw [orderedInsert_filter_false hp', ih]
      simp [List.filter_cons, hp']

theorem artist_id_injective {a b : String} (h : "artist_" ++ a = "artist_" ++ b) :
    a = b := by
  have h2 := congrArg String.data h
  rw [String.data_append, String.data_append] at h2
  exact String.ext (List.append_cancel_left h2)

theorem artist_id_ne_album_id (a b : String) : "artist_" ++ a ≠ "album_" ++ b := by
  intro h
  have h2 := congrArg String.data h
  rw [String.data_append, String.data_append] at h2
  have ha : ("artist_" : String).data = ['a', 'r', 't', 'i', 's', 't', '_'] := rfl
  have hb : ("album_" : String).data = ['a', 'l', 'b', 'u', 'm', '_'] := rfl
  rw [ha, hb] at h2
  simp at h2

/-- C6: ranking retains the top-K entries (K = 50 artists, K = 40 albums)
in descending record count with ties kept in first-insertion order, and
with 60 distinct artists of distinct counts the payload holds exactly 50
artist nodes while the 10 dropped artists — those of strictly lowest
count — contribute no node and no edge. -/
theorem top_k_ranking :
    (∀ m : List (String × List GSong),
      (sortedArtists m).length = min 50 m.length ∧
      List.Sorted artistGe (sortedArtists m) ∧
      ∀ c : ℕ, (List.insertionSort artistGe m).filter (fun p => p.2.length = c) =
        m.filter (fun p => p.2.length = c)) ∧
    (∀ m : List (String × AlbumInfo),
      (sortedAlbums m).length = min 40 m.length ∧
      List.Sorted albumGe (sortedAlbums m) ∧
      ∀ c : ℕ, (List.insertionSort albumGe m).filter (fun p => p.2.songs.length = c) =
        m.filter (fun p => p.2.songs.length = c)) ∧
    (∀ (m : List (String × List GSong)) (ad : List (String × AlbumInfo)),
      m.length = 60 → (m.map Prod.fst).Nodup →
      (m.map (fun p => p.2.length)).Nodup →
      ∀ p : GraphPayload, buildGraphFrom m ad = Except.ok p →
        p.nodes.countP (fun n => n.type == "artist") = 50 ∧
        ((List.insertionSort artistGe m).drop 50).length = 10 ∧
        ∀ q ∈ (List.insertionSort artistGe m).drop 50,
          (∀ e ∈ sortedArtists m, q.2.length < e.2.length) ∧
          ("artist_" ++ q.1) ∉ p.nodes.map GNode.id ∧
          ∀ lnk ∈ p.links, lnk.source ≠ "artist_" ++ q.1) := by
  refine ⟨?_, ?_, ?_⟩
  · intro m
    refine ⟨?_, ?_, ?_⟩
    · rw [sortedArtists, List.length_take, (List.perm_insertionSort artistGe m).length_eq]
    · exact ((List.sorted_insertionSort artistGe m).sublist (List.take_sublist _ _))
    · intro c
      exact insertionSort_stable_filter
        (fun x y hx hy => by
          have hx' : x.2.length = c := by simpa using hx
          have hy' : y.2.length = c := by simpa using hy
          show y.2.length ≤ x.2.length
          omega) m
  · intro m
    refine ⟨?_, ?_, ?_⟩
    · rw [sortedAlbums, List.length_take, (List.perm_insertionSort albumGe m).length_eq]
    · exact ((List.sorted_insertionSort albumGe m).sublist (List.take_sublist _ _))
    · intro c
      exact insertionSort_stable_filter
        (fun x y hx hy => by
          have hx' : x.2.songs.length = c := by simpa using hx
          have hy' : y.2.songs.length = c := by simpa using hy
          show y.2.songs.length ≤ x.2.songs.length
          omega) m
  · intro m ad h60 hkeys hcounts p hp
    obtain ⟨p', hp', hnodes, -, hend, -⟩ := buildGraphFrom_shape m ad
    rw [hp] at hp'
    obtain rfl : p = p' := by cases hp'; rfl
    set s := List.insertionSort artistGe m with hs
    have hperm : s.Perm m := List.perm_insertionSort artistGe m
    have hslen : s.length = 60 := by rw [hperm.length_eq, h60]
    have htd := List.take_append_drop 50 s
    have hkeys' : (s.map Prod.fst).Nodup := (hperm.map Prod.fst).symm.nodup hkeys
    have hcounts' : (s.map (fun p => p.2.length)).Nodup :=
      (hperm.map (fun p => p.2.length)).symm.nodup hcounts
    have hsorted : List.Pairwise artistGe s := List.sorted_insertionSort artistGe m
    have hsa : sortedArtists m = s.take 50 := by rw [sortedArtists, hs]
    have hcount50 : p.nodes.countP (fun n => n.type == "artist") = 50 := by
      rw [hnodes, List.countP_append, List.countP_map, List.countP_map]
      have h1 : List.countP ((fun n => n.type == "artist") ∘ artistNodeOf)
          (sortedArtists m) = (sortedArtists m).length := by
        apply List.countP_eq_length.mpr
        intro e _
        rfl
      have h2 : List.countP ((fun n => n.type == "artist") ∘ albumNodeOf)
          ((sortedAlbums ad).filter (fun e => !e.2.songs.isEmpty)) = 0 := by
        apply List.countP_eq_zero.mpr
        intro e _
        simp [albumNodeOf, Function.comp]
      rw [h1, h2, hsa, List.length_take, hslen]
      omega
    refine ⟨hcount50, ?_, ?_⟩
    · rw [List.length_drop, hslen]
    · intro q hq
      have hqs : q ∈ s := by
        rw [← htd]
        exact List.mem_append_right _ hq
      have hkey_ne : ∀ e ∈ s.take 50, q.1 ≠ e.1 := by
        intro e he heq
        have hnd : ((s.take 50).map Prod.fst ++ (s.drop 50).map Prod.fst).Nodup := by
          rw [← List.map_append, htd]
          exact hkeys'
        have hdis := (List.pairwise_append.mp hnd).2.2
        exact hdis e.1 (List.mem_map_of_mem _ he) q.1 (List.mem_map_of_mem _ hq)
          (by rw [heq])
      have hcnt_ne : ∀ e ∈ s.take 50, q.2.length ≠ e.2.length := by
        intro e he heq
        have hnd : ((s.take 50).map (fun p => p.2.length) ++
            (s.drop 50).map (fun p => p.2.length)).Nodup := by
          rw [← List.map_append, htd]
          exact hcounts'
        have hdis := (List.pairwise_append.mp hnd).2.2
        exact hdis e.2.length (List.mem_map_of_mem _ he) q.2.length
          (List.mem_map_of_mem _ hq) (by rw [heq])
      have hlt : ∀ e ∈ sortedArtists m, q.2.length < e.2.length := by
        intro e he
        rw [hsa] at he
        have hge : artistGe e q := by
          have := (List.pairwise_append.mp (by rwa [htd])).2.2
          exact this e he q hq
        have hne := hcnt_ne e he
        have : q.2.length ≤ e.2.length := hge
        omega
      have hnot : ("artist_" ++ q.1) ∉ p.nodes.map GNode.id := by
        intro hmem
        rw [hnodes] at hmem
        rcases List.mem_map.mp hmem with ⟨n, hn, hid⟩
        rcases List.mem_append.mp hn with h1 | h1
        · rcases List.mem_map.mp h1 with ⟨e, he, hne⟩
          rw [← hne] at hid
          have : "artist_" ++ e.1 = "artist_" ++ q.1 := hid
          have heq := artist_id_injective this
          exact hkey_ne e (hsa ▸ he) heq.symm
        · rcases List.mem_map.mp h1 with ⟨e, he, hne⟩
          rw [← hne] at hid
          refine artist_id_ne_album_id q.1 e.1 ?_
          rw [← hid]
          rfl
      refine ⟨hlt, hnot, ?_⟩
      intro lnk hlnk heq
      have := (hend lnk hlnk).1
      rw [heq] at this
      exact hnot this

/-- Sixty artist groups with pairwise-distinct names and pairwise-distinct
record counts 1..60. -/
def m60 : List (String × List GSong) :=
  (List.range 60).map (fun i =>
    (String.mk (List.replicate (i + 1) 'a'), List.replicate (i + 1) (⟨none, none, none⟩ : GSong)))

/-- Witness for C6 at the concrete sixty-artist mapping. -/
theorem top_k_ranking_witness :
    m60.length = 60 ∧ (m60.map Prod.fst).Nodup ∧
    (m60.map (fun p => p.2.length)).Nodup ∧
    ∃ p : GraphPayload, buildGraphFrom m60 [] = Except.ok p ∧
      p.nodes.countP (fun n => n.type == "artist") = 50 ∧
      ((List.insertionSort artistGe m60).drop 50).length = 10 := by
  have h60 : m60.length = 60 := by decide
  have hk : (m60.map Prod.fst).Nodup := by decide
  have hc : (m60.map (fun p => p.2.length)).Nodup := by decide
  obtain ⟨p, hp, -, -, -, -⟩ := buildGraphFrom_shape m60 []
  obtain ⟨h1, h2, -⟩ := top_k_ranking.2.2 m60 [] h60 hk hc p hp
  exact ⟨h60, hk, hc, p, hp, h1, h2⟩

/-! ### The statistics route's artist attribution (C2) -/

/-- Record groups keyed by the tokens a splitter extracts from the artist
field, records appended in input order. -/
def artistGroupsBy (split : Track → List String) (data : List Track) :
    List (String × List Track) :=
  data.foldl (fun m s => (split s).foldl (fun acc tok => alistAppend acc tok s) m) []

/-- Top-10 artists as the amended claim describes them: group records by
the plain `split(', ')` tokens, rank the groups by record count with
K = 10. -/
def amendedTopArtists (data : List Track) : List (String × ℕ) :=
  mostCommon 10 ((artistGroupsBy statsArtistTokens data).map (fun p => (p.1, p.2.length)))

/-- Top-10 artists as claim C2 states them: attribute each record to
every artist name the §4.1 normalizer extracts, rank by record count
with K = 10. -/
def claimedTopArtists (data : List Track) : List (String × ℕ) :=
  mostCommon 10 ((artistGroupsBy (fun s => normalize_artists s.artist_names) data).map
    (fun p => (p.1, p.2.length)))

theorem counterAdd_alistAppend {α : Type} (m : List (String × List α)) (k : String) (v : α) :
    counterAdd (m.map (fun p => (p.1, p.2.length))) k =
      (alistAppend m k v).map (fun p => (p.1, p.2.length)) := by
  unfold counterAdd alistAppend
  have hany : ((m.map (fun p => (p.1, p.2.length))).any (fun p => p.1 == k)) =
      (m.any (fun p => p.1 == k)) := by
    induction m with
    | nil => rfl
    | cons x t ih => simp only [List.map_cons, List.any_cons, ih]
  rw [hany]
  by_cases h : m.any (fun p => p.1 == k)
  · rw [if_pos h, if_pos h, List.map_map, List.map_map]
    apply List.map_congr_left
    intro x _
    by_cases hx : x.1 == k
    · simp [Function.comp, hx]
    · simp [Function.comp, hx]
  · rw [if_neg h, if_neg h, List.map_append]
    rfl

theorem counter_fold_tokens {α : Type} (v : α) :
    ∀ (toks : List String) (m : List (String × List α)),
      toks.foldl counterAdd (m.map (fun p => (p.1, p.2.length))) =
        (toks.foldl (fun acc t => alistAppend acc t v) m).map (fun p => (p.1, p.2.length)) := by
  intro toks
  induction toks with
  | nil => intro m; rfl
  | cons t ts ih =>
    intro m
    simp only [List.foldl_cons]
    rw [counterAdd_alistAppend m t v]
    exact ih (alistAppend m t v)

theorem counter_fold_records (split : Track → List String) :
    ∀ (data : List Track) (m : List (String × List Track)),
      (data.flatMap split).foldl counterAdd (m.map (fun p => (p.1, p.2.length))) =
        (data.foldl (fun acc s => (split s).foldl (fun a t => alistAppend a t s) acc) m).map
          (fun p => (p.1, p.2.length)) := by
  intro data
  induction data with
  | nil => intro m; rfl
  | cons s d ih =>
    intro m
    simp only [List.flatMap_cons, List.foldl_append, List.foldl_cons]
    rw [counter_fold_tokens s (split s) m]
    exact ih ((split s).foldl (fun a t => alistAppend a t s) m)

/-- C2 amended: the statistics route's top-10 artists are the top-10
record-count groups obtained by attributing each record to every token of
its artist field split on `", "` alone — no `"; "` fallback, no
trimming, no empty-token discard (an empty field contributes the
empty-string token). -/
theorem stats_top_artists_amended (data : List Track) :
    top_artists data = amendedTopArtists data := by
  unfold top_artists amendedTopArtists artist_counts counter all_artists artistGroupsBy
  have h := counter_fold_records statsArtistTokens data []
  simp only [List.map_nil] at h
  rw [h]

/-- Counterexample to C2 as stated: on one record with artist field
`"A; B"` the statistics route produces the single group `"A; B"`, while
the §4.1 normalizer attribution of the claim would produce the groups
`"A"` and `"B"`. -/
theorem stats_split_counterexample :
    top_artists [⟨"A; B", "X", "1999", 0, Q.ofInt 0, 0, false⟩] = [("A; B", 1)] ∧
    claimedTopArtists [⟨"A; B", "X", "1999", 0, Q.ofInt 0, 0, false⟩] = [("A", 1), ("B", 1)] ∧
    top_artists [⟨"A; B", "X", "1999", 0, Q.ofInt 0, 0, false⟩] ≠
      claimedTopArtists [⟨"A; B", "X", "1999", 0, Q.ofInt 0, 0, false⟩] := by
  exact ⟨by decide, by decide, by decide⟩

end Exportify
